import Mathlib

/-!
Shallow embedding of the bio-agent FastAPI backend (src/main.py, src/db.py,
src/schemas.py) and verification of its specification.

Modelling choices:
- UUID primary keys become natural numbers; `DB.next_id` is the fresh-id
  source (uuid4 generation), so every newly inserted row gets `next_id`
  and the counter increases.
- Timestamps (`datetime.utcnow`) become a natural number read from the
  ambient clock `DB.now`; `onupdate` refreshes `updated_at` on mutation.
- JSONB columns hold opaque structured values, modelled by `PyVal`.
- SQLAlchemy queries over a table become list operations on the table's
  row list: `.filter(...).first()` is `List.find?`,
  `.filter(...).all()` is `List.filter`, and
  `.order_by(col.desc()).first()` is `latestByVersion` (the row kept by a
  left fold that replaces the accumulator on strictly larger version,
  i.e. some row attaining the maximum version).
- `raise HTTPException(...)` becomes `Except.error`; a handler that raises
  before any insert/commit leaves the database unchanged by construction.
- Deleting a project whose child rows exist fails: the child tables all
  declare project_id NOT NULL and the relationships configure no delete
  cascade, so the commit's FK nullification raises IntegrityError (an
  unhandled 500) and the transaction rolls back; this is modelled by the
  `hasChildRows` guard in `delete_project`.
- File-system writes of uploads are out of scope; only the recorded
  `file_path` string is kept.
-/

namespace BioAgent

/-- FastAPI HTTPException: a status code plus a detail message. -/
structure HTTPException where
  status_code : Nat
  detail : String
deriving DecidableEq

/-- Opaque Python/JSON value, used for JSONB columns and dict responses. -/
inductive PyVal where
  | pynone : PyVal
  | pybool : Bool → PyVal
  | pyint : Int → PyVal
  | pystr : String → PyVal
  | pylist : List PyVal → PyVal
  | pydict : List (String × PyVal) → PyVal

/-- Row of the projects table (db.py, class Project). -/
structure Project where
  id : Nat
  name : String
  description : Option String
  status : String
  current_agent : Option String
  created_at : Nat
  updated_at : Nat

/-- Row of the audio_files table (db.py, class AudioFile). -/
structure AudioFile where
  id : Nat
  project_id : Nat
  filename : String
  file_path : String
  duration : Option Float
  created_at : Nat

/-- Row of the dialogues table (db.py, class Dialogue). -/
structure Dialogue where
  id : Nat
  project_id : Nat
  content : PyVal
  created_at : Nat

/-- Row of the blueprints table (db.py, class Blueprint). -/
structure Blueprint where
  id : Nat
  project_id : Nat
  content : PyVal
  version : Int
  created_at : Nat

/-- Row of the articles table (db.py, class Article). -/
structure Article where
  id : Nat
  project_id : Nat
  title : Option String
  content : String
  footnotes : PyVal
  audit_report : PyVal
  word_count : Option Int
  version : Int
  created_at : Nat

/-- The relational store: one row list per table, plus the fresh-id
counter and the ambient clock. -/
structure DB where
  projects : List Project
  audio_files : List AudioFile
  dialogues : List Dialogue
  blueprints : List Blueprint
  articles : List Article
  next_id : Nat
  now : Nat

/-- Request body of POST /projects (schemas.py, ProjectCreate). -/
structure ProjectCreate where
  name : String
  description : Option String

/-- Field names of the ArticleResponse schema (schemas.py, lines 84-96). -/
def articleResponseFields : List String :=
  ["id", "title", "content", "footnotes", "audit_report", "word_count",
   "version", "created_at"]

/-- Column names of the articles table (db.py, class Article). -/
def articleTableFields : List String :=
  ["id", "project_id", "title", "content", "footnotes", "audit_report",
   "word_count", "version", "created_at"]

/-- Python str.rfind over a character list: index of the last occurrence
of the character, or -1 when absent. -/
def rfindChar (cs : List Char) (c : Char) : Int :=
  (List.range cs.length).foldl
    (fun acc i => if cs.getD i ' ' == c then (i : Int) else acc) (-1)

/-- Extension part of os.path.splitext (posixpath._splitext): the suffix
from the last dot, provided that dot lies strictly after the last path
separator and some non-dot character of the basename precedes it
(leading dots of the basename never start an extension). -/
def splitextExt (p : String) : String :=
  let cs := p.data
  let sepIndex := rfindChar cs '/'
  let dotIndex := rfindChar cs '.'
  if sepIndex < dotIndex then
    if (List.range dotIndex.toNat).any
        (fun k => decide ((sepIndex + 1).toNat ≤ k) && cs.getD k ' ' != '.') then
      String.mk (cs.drop dotIndex.toNat)
    else ""
  else ""

/-- Python str.lower on the character list (ASCII case mapping, which
is all the allow-list comparison can distinguish). -/
def strLower (s : String) : String :=
  String.mk (s.data.map Char.toLower)

/-- Allow-list of audio upload extensions (main.py, line 126). -/
def allowedExtensions : List String := [".mp3", ".wav", ".m4a", ".flac"]

/-- Models db.query(Project).filter(Project.id == project_id).first(). -/
def findProject (pid : Nat) (db : DB) : Option Project :=
  db.projects.find? (fun p => p.id == pid)

/-- Truthiness of the first() result, used by every existence check. -/
def projectExists (pid : Nat) (db : DB) : Bool :=
  (findProject pid db).isSome

/-- Status of the project a lookup by id would return, if any. -/
def projStatus (pid : Nat) (db : DB) : Option String :=
  (findProject pid db).map Project.status

/-- current_agent of the project a lookup by id would return, if any. -/
def projAgent (pid : Nat) (db : DB) : Option (Option String) :=
  (findProject pid db).map Project.current_agent

/-- POST /projects (main.py, create_project): insert a new project with
default status INITIALIZED and return it. -/
def create_project (data : ProjectCreate) (db : DB) : Project × DB :=
  let project : Project :=
    { id := db.next_id, name := data.name, description := data.description,
      status := "INITIALIZED", current_agent := none,
      created_at := db.now, updated_at := db.now }
  (project,
   { db with projects := db.projects ++ [project], next_id := db.next_id + 1 })

/-- GET /projects (main.py, list_projects). -/
def list_projects (db : DB) : List Project :=
  db.projects

/-- GET /projects/id (main.py, get_project). -/
def get_project (pid : Nat) (db : DB) : Except HTTPException Project :=
  match findProject pid db with
  | none => .error ⟨404, "项目不存在"⟩
  | some p => .ok p

/-- Whether any child-table row references the project: the collections
SQLAlchemy loads through the relationships of db.py lines 57-60 when the
parent is deleted. -/
def hasChildRows (pid : Nat) (db : DB) : Bool :=
  db.audio_files.any (fun a => a.project_id == pid) ||
  db.dialogues.any (fun d => d.project_id == pid) ||
  db.blueprints.any (fun b => b.project_id == pid) ||
  db.articles.any (fun a => a.project_id == pid)

/-- DELETE /projects/id (main.py, delete_project). db.delete plus commit
under SQLAlchemy's default relationship handling (db.py lines 57-60: no
delete cascade, no passive_deletes) first tries to null the project_id
column of every child row; project_id is NOT NULL on all four child
tables (db.py lines 68, 84, 100, 118), so when child rows exist the
commit raises IntegrityError, nothing is deleted, and the unhandled
exception surfaces as a 500. Only a childless project row is actually
removed, and child rows are never deleted either way. -/
def delete_project (pid : Nat) (db : DB) : Except HTTPException (String × DB) :=
  match findProject pid db with
  | none => .error ⟨404, "项目不存在"⟩
  | some _ =>
      if hasChildRows pid db then .error ⟨500, "IntegrityError"⟩
      else
        .ok ("删除成功",
          { db with projects := db.projects.eraseP (fun p => p.id == pid) })

/-- POST /projects/id/audio (main.py, upload_audio): check the project,
check the lowercased splitext extension against the allow-list, then
record the file. The Python f-string detail renders the allow-list set
with run-dependent ordering, so only its fixed prefix is modelled. -/
def upload_audio (pid : Nat) (filename : String) (db : DB) :
    Except HTTPException ((String × String) × DB) :=
  match findProject pid db with
  | none => .error ⟨404, "项目不存在"⟩
  | some _ =>
      let ext := strLower (splitextExt filename)
      if ext ∈ allowedExtensions then
        let fp := "uploads/" ++ toString pid ++ "/" ++ filename
        let audio : AudioFile :=
          { id := db.next_id, project_id := pid, filename := filename,
            file_path := fp, duration := none, created_at := db.now }
        .ok (("上传成功", filename),
          { db with audio_files := db.audio_files ++ [audio],
                    next_id := db.next_id + 1 })
      else .error ⟨400, "不支持的文件类型"⟩

/-- Shape of each element returned by GET /projects/id/audio. -/
structure AudioOut where
  id : Nat
  filename : String
  duration : Option Float

/-- GET /projects/id/audio (main.py, list_audio): no existence check. -/
def list_audio (pid : Nat) (db : DB) : List AudioOut :=
  (db.audio_files.filter (fun f => f.project_id == pid)).map
    (fun f => { id := f.id, filename := f.filename, duration := f.duration })

/-- GET /projects/id/dialogue (main.py, get_dialogue). -/
def get_dialogue (pid : Nat) (db : DB) : Except HTTPException PyVal :=
  match db.dialogues.find? (fun d => d.project_id == pid) with
  | none => .error ⟨404, "暂无对话数据"⟩
  | some d => .ok d.content

/-- Models order_by(version.desc()).first(): a fold that keeps the current row
unless a strictly larger version appears, so the result is a row with
the maximum version. -/
def latestByVersion {α : Type} (ver : α → Int) : List α → Option α
  | [] => none
  | x :: xs =>
      some (xs.foldl (fun acc y => if ver acc < ver y then y else acc) x)

/-- GET /projects/id/blueprint (main.py, get_blueprint). -/
def get_blueprint (pid : Nat) (db : DB) : Except HTTPException PyVal :=
  match latestByVersion Blueprint.version
      (db.blueprints.filter (fun b => b.project_id == pid)) with
  | none => .error ⟨404, "暂无蓝图"⟩
  | some b => .ok b.content

/-- Dict literal returned by get_article (main.py, lines 188-195). -/
def articleDict (a : Article) : List (String × PyVal) :=
  [("id", PyVal.pyint a.id),
   ("title", match a.title with | none => PyVal.pynone | some t => PyVal.pystr t),
   ("content", PyVal.pystr a.content),
   ("footnotes", a.footnotes),
   ("word_count", match a.word_count with | none => PyVal.pynone | some n => PyVal.pyint n),
   ("version", PyVal.pyint a.version)]

/-- GET /projects/id/article (main.py, get_article). -/
def get_article (pid : Nat) (db : DB) :
    Except HTTPException (List (String × PyVal)) :=
  match latestByVersion Article.version
      (db.articles.filter (fun a => a.project_id == pid)) with
  | none => .error ⟨404, "暂无文章"⟩
  | some a => .ok (articleDict a)

/-- GET /projects/id/article/markdown (main.py, get_article_markdown). -/
def get_article_markdown (pid : Nat) (db : DB) : Except HTTPException String :=
  match latestByVersion Article.version
      (db.articles.filter (fun a => a.project_id == pid)) with
  | none => .error ⟨404, "暂无文章"⟩
  | some a => .ok a.content

/-- POST /projects/id/transcribe (main.py, start_transcribe). -/
def start_transcribe (pid : Nat) (db : DB) :
    Except HTTPException ((String × String) × DB) :=
  match findProject pid db with
  | none => .error ⟨404, "项目不存在"⟩
  | some _ =>
      .ok (("转录已开始", "TRANSCRIBING"),
        { db with projects := db.projects.map (fun p =>
            if p.id == pid then
              { p with status := "TRANSCRIBING",
                       current_agent := some "AudioProcessingAgent",
                       updated_at := db.now }
            else p) })

/-- POST /projects/id/plan (main.py, start_planning). -/
def start_planning (pid : Nat) (db : DB) :
    Except HTTPException ((String × String) × DB) :=
  match findProject pid db with
  | none => .error ⟨404, "项目不存在"⟩
  | some _ =>
      .ok (("规划已开始", "PLANNING"),
        { db with projects := db.projects.map (fun p =>
            if p.id == pid then
              { p with status := "PLANNING",
                       current_agent := some "PlanningAgent",
                       updated_at := db.now }
            else p) })

/-- POST /projects/id/write (main.py, start_writing). -/
def start_writing (pid : Nat) (db : DB) :
    Except HTTPException ((String × String) × DB) :=
  match findProject pid db with
  | none => .error ⟨404, "项目不存在"⟩
  | some _ =>
      .ok (("写作已开始", "WRITING"),
        { db with projects := db.projects.map (fun p =>
            if p.id == pid then
              { p with status := "WRITING",
                       current_agent := some "WritingAgent",
                       updated_at := db.now }
            else p) })

/-- The three lifecycle trigger endpoints. -/
inductive Trigger where
  | transcribe : Trigger
  | plan : Trigger
  | write : Trigger

/-- Status literal written by each trigger endpoint. -/
def Trigger.targetStatus : Trigger → String
  | .transcribe => "TRANSCRIBING"
  | .plan => "PLANNING"
  | .write => "WRITING"

/-- current_agent literal written by each trigger endpoint. -/
def Trigger.targetAgent : Trigger → String
  | .transcribe => "AudioProcessingAgent"
  | .plan => "PlanningAgent"
  | .write => "WritingAgent"

/-- Message string returned by each trigger endpoint. -/
def Trigger.message : Trigger → String
  | .transcribe => "转录已开始"
  | .plan => "规划已开始"
  | .write => "写作已开始"

/-- Dispatch a trigger endpoint. -/
def runTrigger : Trigger → Nat → DB → Except HTTPException ((String × String) × DB)
  | .transcribe => start_transcribe
  | .plan => start_planning
  | .write => start_writing

/-- Run a sequence of trigger calls against one project, stopping at the
first HTTP error. -/
def runTriggers (pid : Nat) : List Trigger → DB → Except HTTPException DB
  | [], db => .ok db
  | t :: ts, db =>
      match runTrigger t pid db with
      | .error e => .error e
      | .ok (_, db2) => runTriggers pid ts db2

/-- One invocation of any endpoint of the HTTP surface, with its inputs. -/
inductive Call where
  | createProject : ProjectCreate → Call
  | listProjects : Call
  | getProject : Nat → Call
  | deleteProject : Nat → Call
  | uploadAudio : Nat → String → Call
  | listAudio : Nat → Call
  | getDialogue : Nat → Call
  | getBlueprint : Nat → Call
  | getArticle : Nat → Call
  | getArticleMarkdown : Nat → Call
  | transcribe : Nat → Call
  | plan : Nat → Call
  | write : Nat → Call

/-- Database after one endpoint call: handlers that raise leave the
store unchanged, read-only handlers do not touch it. -/
def stepCall (c : Call) (db : DB) : DB :=
  match c with
  | .createProject data => (create_project data db).2
  | .listProjects => db
  | .getProject _ => db
  | .deleteProject pid =>
      match delete_project pid db with
      | .ok (_, db2) => db2
      | .error _ => db
  | .uploadAudio pid fn =>
      match upload_audio pid fn db with
      | .ok (_, db2) => db2
      | .error _ => db
  | .listAudio _ => db
  | .getDialogue _ => db
  | .getBlueprint _ => db
  | .getArticle _ => db
  | .getArticleMarkdown _ => db
  | .transcribe pid =>
      match start_transcribe pid db with
      | .ok (_, db2) => db2
      | .error _ => db
  | .plan pid =>
      match start_planning pid db with
      | .ok (_, db2) => db2
      | .error _ => db
  | .write pid =>
      match start_writing pid db with
      | .ok (_, db2) => db2
      | .error _ => db

/-- Database after a sequence of endpoint calls. -/
def stepCalls (cs : List Call) (db : DB) : DB :=
  cs.foldl (fun db c => stepCall c db) db

/-- The four status strings any endpoint can ever leave in place. -/
def allowedStatuses : List String :=
  ["INITIALIZED", "TRANSCRIBING", "PLANNING", "WRITING"]

/-- Every project row carries one of the four reachable statuses. -/
def statusOK (db : DB) : Prop :=
  ∀ p ∈ db.projects, p.status ∈ allowedStatuses

/-- Concrete project used to exercise the theorems. -/
def sampleProject : Project :=
  { id := 1, name := "P1", description := none, status := "INITIALIZED",
    current_agent := none, created_at := 0, updated_at := 0 }

/-- Concrete blueprint row for project 1. -/
def sampleBlueprint : Blueprint :=
  { id := 2, project_id := 1, content := PyVal.pystr "bp", version := 1,
    created_at := 0 }

/-- Concrete article row for project 1. -/
def sampleArticle : Article :=
  { id := 3, project_id := 1, title := some "T", content := "body",
    footnotes := PyVal.pylist [], audit_report := PyVal.pydict [],
    word_count := some 4, version := 1, created_at := 0 }

/-- Concrete database holding project 1 with one blueprint and one
article and nothing else. -/
def sampleDB : DB :=
  { projects := [sampleProject], audio_files := [], dialogues := [],
    blueprints := [sampleBlueprint], articles := [sampleArticle],
    next_id := 4, now := 0 }

/-- Concrete database whose only project (id 7) has no child rows. -/
def sampleDB2 : DB :=
  { projects := [{ id := 7, name := "P7", description := none,
                   status := "INITIALIZED", current_agent := none,
                   created_at := 0, updated_at := 0 }],
    audio_files := [], dialogues := [], blueprints := [], articles := [],
    next_id := 8, now := 0 }

/-! Helper lemmas. -/

theorem find?_map_id_preserving (l : List Project) (g : Project → Project)
    (hg : ∀ p, (g p).id = p.id) (pid : Nat) :
    (l.map g).find? (fun p => p.id == pid)
      = (l.find? (fun p => p.id == pid)).map g := by
  have hfun : ((fun p : Project => p.id == pid) ∘ g)
      = (fun p : Project => p.id == pid) := by
    funext q
    simp [Function.comp, hg]
  rw [List.find?_map, hfun]

theorem setStatus_find (l : List Project) (pid : Nat) (st : String)
    (ag : Option String) (ts : Nat) (p : Project)
    (hp : l.find? (fun q => q.id == pid) = some p) :
    (l.map (fun q =>
        if q.id == pid then
          { q with status := st, current_agent := ag, updated_at := ts }
        else q)).find? (fun q => q.id == pid)
      = some { p with status := st, current_agent := ag, updated_at := ts } := by
  rw [find?_map_id_preserving]
  · rw [hp]
    have hpeq : p.id = pid := by
      have h2 := List.find?_some hp
      simpa using h2
    simp [hpeq]
  · intro q
    by_cases h : q.id = pid <;> simp [h]

theorem setStatus_state (db : DB) (pid : Nat) (st : String)
    (ag : Option String) (p : Project)
    (hp : findProject pid db = some p) :
    findProject pid
      { db with projects := db.projects.map (fun q =>
          if q.id == pid then
            { q with status := st, current_agent := ag, updated_at := db.now }
          else q) }
      = some { p with status := st, current_agent := ag, updated_at := db.now } := by
  unfold findProject at hp ⊢
  exact setStatus_find db.projects pid st ag db.now p hp

theorem start_transcribe_eq (pid : Nat) (db : DB) (p : Project)
    (hp : findProject pid db = some p) :
    start_transcribe pid db = .ok (("转录已开始", "TRANSCRIBING"),
      { db with projects := db.projects.map (fun q =>
          if q.id == pid then
            { q with status := "TRANSCRIBING",
                     current_agent := some "AudioProcessingAgent",
                     updated_at := db.now }
          else q) }) := by
  unfold start_transcribe
  rw [hp]

theorem start_planning_eq (pid : Nat) (db : DB) (p : Project)
    (hp : findProject pid db = some p) :
    start_planning pid db = .ok (("规划已开始", "PLANNING"),
      { db with projects := db.projects.map (fun q =>
          if q.id == pid then
            { q with status := "PLANNING",
                     current_agent := some "PlanningAgent",
                     updated_at := db.now }
          else q) }) := by
  unfold start_planning
  rw [hp]

theorem start_writing_eq (pid : Nat) (db : DB) (p : Project)
    (hp : findProject pid db = some p) :
    start_writing pid db = .ok (("写作已开始", "WRITING"),
      { db with projects := db.projects.map (fun q =>
          if q.id == pid then
            { q with status := "WRITING",
                     current_agent := some "WritingAgent",
                     updated_at := db.now }
          else q) }) := by
  unfold start_writing
  rw [hp]

theorem runTrigger_state (t : Trigger) (pid : Nat) (db : DB) (p : Project)
    (hp : findProject pid db = some p) :
    ∃ db2, runTrigger t pid db = .ok ((t.message, t.targetStatus), db2) ∧
      projectExists pid db2 = true ∧
      projStatus pid db2 = some t.targetStatus ∧
      projAgent pid db2 = some (some t.targetAgent) := by
  cases t with
  | transcribe =>
    have hf2 := setStatus_state db pid "TRANSCRIBING"
      (some "AudioProcessingAgent") p hp
    refine ⟨_, start_transcribe_eq pid db p hp, ?_, ?_, ?_⟩
    · unfold projectExists
      rw [hf2]
      rfl
    · unfold projStatus
      rw [hf2]
      rfl
    · unfold projAgent
      rw [hf2]
      rfl
  | plan =>
    have hf2 := setStatus_state db pid "PLANNING" (some "PlanningAgent") p hp
    refine ⟨_, start_planning_eq pid db p hp, ?_, ?_, ?_⟩
    · unfold projectExists
      rw [hf2]
      rfl
    · unfold projStatus
      rw [hf2]
      rfl
    · unfold projAgent
      rw [hf2]
      rfl
  | write =>
    have hf2 := setStatus_state db pid "WRITING" (some "WritingAgent") p hp
    refine ⟨_, start_writing_eq pid db p hp, ?_, ?_, ?_⟩
    · unfold projectExists
      rw [hf2]
      rfl
    · unfold projStatus
      rw [hf2]
      rfl
    · unfold projAgent
      rw [hf2]
      rfl

theorem runTriggers_last (pid : Nat) (t : Trigger) (l : List Trigger) (db : DB)
    (h : projectExists pid db = true) :
    ∃ db2, runTriggers pid (l ++ [t]) db = .ok db2 ∧
      projStatus pid db2 = some t.targetStatus ∧
      projAgent pid db2 = some (some t.targetAgent) := by
  induction l generalizing db with
  | nil =>
    unfold projectExists at h
    obtain ⟨p, hp⟩ := Option.isSome_iff_exists.1 h
    obtain ⟨db2, he, _, hst, hag⟩ := runTrigger_state t pid db p hp
    refine ⟨db2, ?_, hst, hag⟩
    simp [runTriggers, he]
  | cons s ss ih =>
    unfold projectExists at h
    obtain ⟨p, hp⟩ := Option.isSome_iff_exists.1 h
    obtain ⟨db2, he, hex, _, _⟩ := runTrigger_state s pid db p hp
    obtain ⟨db3, he3, hst3, hag3⟩ := ih db2 hex
    refine ⟨db3, ?_, hst3, hag3⟩
    simp [runTriggers, he]
    exact he3

theorem pickMax_mem {α : Type} (ver : α → Int) (xs : List α) (x : α) :
    xs.foldl (fun acc y => if ver acc < ver y then y else acc) x ∈ x :: xs := by
  induction xs generalizing x with
  | nil => simp
  | cons y ys ih =>
    simp only [List.foldl_cons]
    by_cases hc : ver x < ver y
    · simp only [if_pos hc]
      exact List.mem_cons_of_mem x (ih y)
    · simp only [if_neg hc]
      rcases List.mem_cons.1 (ih x) with h1 | h1
      · rw [h1]
        exact List.mem_cons_self _ _
      · exact List.mem_cons_of_mem x (List.mem_cons_of_mem y h1)

theorem pickMax_le {α : Type} (ver : α → Int) (xs : List α) (x : α) :
    ver x ≤ ver (xs.foldl (fun acc y => if ver acc < ver y then y else acc) x) ∧
    ∀ y ∈ xs,
      ver y ≤ ver (xs.foldl (fun acc y => if ver acc < ver y then y else acc) x) := by
  induction xs generalizing x with
  | nil => exact ⟨le_refl _, by simp⟩
  | cons y ys ih =>
    simp only [List.foldl_cons]
    by_cases hc : ver x < ver y
    · simp only [if_pos hc]
      obtain ⟨h1, h2⟩ := ih y
      refine ⟨le_trans (le_of_lt hc) h1, ?_⟩
      intro z hz
      rcases List.mem_cons.1 hz with rfl | hz2
      · exact h1
      · exact h2 z hz2
    · simp only [if_neg hc]
      obtain ⟨h1, h2⟩ := ih x
      refine ⟨h1, ?_⟩
      intro z hz
      rcases List.mem_cons.1 hz with rfl | hz2
      · exact le_trans (le_of_not_lt hc) h1
      · exact h2 z hz2

theorem latestByVersion_spec {α : Type} (ver : α → Int) (l : List α)
    (hl : l ≠ []) :
    ∃ x, latestByVersion ver l = some x ∧ x ∈ l ∧ ∀ y ∈ l, ver y ≤ ver x := by
  cases l with
  | nil => exact absurd rfl hl
  | cons a as =>
    refine ⟨_, rfl, pickMax_mem ver as a, ?_⟩
    intro y hy
    obtain ⟨h1, h2⟩ := pickMax_le ver as a
    rcases List.mem_cons.1 hy with rfl | hy2
    · exact h1
    · exact h2 y hy2

theorem latestByVersion_nil {α : Type} (ver : α → Int) :
    latestByVersion ver ([] : List α) = none := rfl

theorem delete_project_ok (pid : Nat) (db : DB) (p : Project)
    (hp : findProject pid db = some p)
    (hch : hasChildRows pid db = false) :
    delete_project pid db = .ok ("删除成功",
      { db with projects := db.projects.eraseP (fun q => q.id == pid) }) := by
  unfold delete_project
  rw [hp]
  rw [if_neg (by simp [hch])]

theorem delete_project_err (pid : Nat) (db : DB) (p : Project)
    (hp : findProject pid db = some p)
    (hch : hasChildRows pid db = true) :
    delete_project pid db = .error ⟨500, "IntegrityError"⟩ := by
  unfold delete_project
  rw [hp]
  rw [if_pos hch]

theorem eraseP_id_complete (l : List Project) (pid : Nat)
    (hw : l.Pairwise (fun p q => p.id ≠ q.id)) :
    ∀ q ∈ l.eraseP (fun p => p.id == pid), q.id ≠ pid := by
  induction l with
  | nil => simp
  | cons x xs ih =>
    rcases List.pairwise_cons.1 hw with ⟨hx, hxs⟩
    by_cases hc : x.id = pid
    · rw [List.eraseP_cons_of_pos (by simpa using hc)]
      intro q hq h2
      exact (hc ▸ hx q hq) h2.symm
    · rw [List.eraseP_cons_of_neg (by simpa using hc)]
      intro q hq
      rcases List.mem_cons.1 hq with rfl | hq2
      · exact hc
      · exact ih hxs q hq2

theorem upload_audio_ok (pid : Nat) (filename : String) (db : DB) (p : Project)
    (hp : findProject pid db = some p)
    (hext : strLower (splitextExt filename) ∈ allowedExtensions) :
    upload_audio pid filename db = .ok (("上传成功", filename),
      { db with
          next_id := db.next_id + 1,
          audio_files := db.audio_files ++
            [{ id := db.next_id, project_id := pid, filename := filename,
               file_path := "uploads/" ++ toString pid ++ "/" ++ filename,
               duration := none, created_at := db.now }] }) := by
  unfold upload_audio
  rw [hp]
  simp only [if_pos hext]

theorem status_mem_map_set (l : List Project) (pid : Nat) (st : String)
    (ag : Option String) (ts : Nat)
    (hst : st ∈ allowedStatuses)
    (h : ∀ p ∈ l, p.status ∈ allowedStatuses) :
    ∀ p ∈ l.map (fun q =>
        if q.id == pid then
          { q with status := st, current_agent := ag, updated_at := ts }
        else q), p.status ∈ allowedStatuses := by
  intro p hp
  rcases List.mem_map.1 hp with ⟨q, hq, rfl⟩
  by_cases hc : q.id = pid
  · simpa [hc] using hst
  · simpa [hc] using h q hq

theorem stepCall_statusOK (c : Call) (db : DB) (h : statusOK db) :
    statusOK (stepCall c db) := by
  cases c with
  | createProject data =>
    intro p hp
    rcases List.mem_append.1 hp with h1 | h1
    · exact h p h1
    · rcases List.mem_singleton.1 h1 with rfl
      simp [allowedStatuses]
  | listProjects => exact h
  | getProject pid => exact h
  | deleteProject pid =>
    cases hd : findProject pid db with
    | none =>
      have he : stepCall (Call.deleteProject pid) db = db := by
        simp only [stepCall]
        unfold delete_project
        rw [hd]
      rw [he]
      exact h
    | some p =>
      cases hch : hasChildRows pid db with
      | true =>
        have he : stepCall (Call.deleteProject pid) db = db := by
          simp only [stepCall]
          rw [delete_project_err pid db p hd hch]
        rw [he]
        exact h
      | false =>
        have he : stepCall (Call.deleteProject pid) db
            = { db with projects := db.projects.eraseP (fun q => q.id == pid) } := by
          simp only [stepCall]
          rw [delete_project_ok pid db p hd hch]
        rw [he]
        intro q hq
        exact h q (List.mem_of_mem_eraseP hq)
  | uploadAudio pid fn =>
    cases hd : findProject pid db with
    | none =>
      have he : stepCall (Call.uploadAudio pid fn) db = db := by
        simp only [stepCall]
        unfold upload_audio
        rw [hd]
      rw [he]
      exact h
    | some p =>
      by_cases hext : strLower (splitextExt fn) ∈ allowedExtensions
      · have he : stepCall (Call.uploadAudio pid fn) db
            = { db with
                  next_id := db.next_id + 1,
                  audio_files := db.audio_files ++
                    [{ id := db.next_id, project_id := pid, filename := fn,
                       file_path := "uploads/" ++ toString pid ++ "/" ++ fn,
                       duration := none, created_at := db.now }] } := by
          simp only [stepCall]
          rw [upload_audio_ok pid fn db p hd hext]
        rw [he]
        exact h
      · have he1 : upload_audio pid fn db = .error ⟨400, "不支持的文件类型"⟩ := by
          unfold upload_audio
          rw [hd]
          simp only [if_neg hext]
        have he : stepCall (Call.uploadAudio pid fn) db = db := by
          simp only [stepCall]
          rw [he1]
        rw [he]
        exact h
  | listAudio pid => exact h
  | getDialogue pid => exact h
  | getBlueprint pid => exact h
  | getArticle pid => exact h
  | getArticleMarkdown pid => exact h
  | transcribe pid =>
    cases hd : findProject pid db with
    | none =>
      have he : stepCall (Call.transcribe pid) db = db := by
        simp only [stepCall]
        unfold start_transcribe
        rw [hd]
      rw [he]
      exact h
    | some p =>
      have he : stepCall (Call.transcribe pid) db
          = { db with projects := db.projects.map (fun q =>
              if q.id == pid then
                { q with status := "TRANSCRIBING",
                         current_agent := some "AudioProcessingAgent",
                         updated_at := db.now }
              else q) } := by
        simp only [stepCall]
        rw [start_transcribe_eq pid db p hd]
      rw [he]
      exact status_mem_map_set db.projects pid "TRANSCRIBING"
        (some "AudioProcessingAgent") db.now (by simp [allowedStatuses]) h
  | plan pid =>
    cases hd : findProject pid db with
    | none =>
      have he : stepCall (Call.plan pid) db = db := by
        simp only [stepCall]
        unfold start_planning
        rw [hd]
      rw [he]
      exact h
    | some p =>
      have he : stepCall (Call.plan pid) db
          = { db with projects := db.projects.map (fun q =>
              if q.id == pid then
                { q with status := "PLANNING",
                         current_agent := some "PlanningAgent",
                         updated_at := db.now }
              else q) } := by
        simp only [stepCall]
        rw [start_planning_eq pid db p hd]
      rw [he]
      exact status_mem_map_set db.projects pid "PLANNING"
        (some "PlanningAgent") db.now (by simp [allowedStatuses]) h
  | write pid =>
    cases hd : findProject pid db with
    | none =>
      have he : stepCall (Call.write pid) db = db := by
        simp only [stepCall]
        unfold start_writing
        rw [hd]
      rw [he]
      exact h
    | some p =>
      have he : stepCall (Call.write pid) db
          = { db with projects := db.projects.map (fun q =>
              if q.id == pid then
                { q with status := "WRITING",
                         current_agent := some "WritingAgent",
                         updated_at := db.now }
              else q) } := by
        simp only [stepCall]
        rw [start_writing_eq pid db p hd]
      rw [he]
      exact status_mem_map_set db.projects pid "WRITING"
        (some "WritingAgent") db.now (by simp [allowedStatuses]) h

theorem stepCalls_statusOK (calls : List Call) (db : DB) (h : statusOK db) :
    statusOK (stepCalls calls db) := by
  induction calls generalizing db with
  | nil => exact h
  | cons c cs ih => exact ih (stepCall c db) (stepCall_statusOK c db h)

/-! Claim theorems. -/

/-- C1: each lifecycle trigger endpoint (transcribe / plan / write)
unconditionally overwrites the status and current_agent of an existing
project with its fixed target, whatever the current status was; any call
sequence ending in write — in particular transcribe, plan, write —
leaves status WRITING and current_agent WritingAgent. -/
theorem lifecycle_triggers_overwrite (pid : Nat) :
    (∀ (t : Trigger) (db : DB) (p : Project), findProject pid db = some p →
      ∃ db2, runTrigger t pid db = .ok ((t.message, t.targetStatus), db2) ∧
        projStatus pid db2 = some t.targetStatus ∧
        projAgent pid db2 = some (some t.targetAgent)) ∧
    (∀ (l : List Trigger) (db : DB), projectExists pid db = true →
      ∃ db2, runTriggers pid (l ++ [Trigger.write]) db = .ok db2 ∧
        projStatus pid db2 = some "WRITING" ∧
        projAgent pid db2 = some (some "WritingAgent")) ∧
    (∀ db : DB, projectExists pid db = true →
      ∃ db2, runTriggers pid [Trigger.transcribe, Trigger.plan, Trigger.write] db
          = .ok db2 ∧
        projStatus pid db2 = some "WRITING" ∧
        projAgent pid db2 = some (some "WritingAgent")) := by
  refine ⟨?_, ?_, ?_⟩
  · intro t db p hp
    obtain ⟨db2, he, _, hst, hag⟩ := runTrigger_state t pid db p hp
    exact ⟨db2, he, hst, hag⟩
  · intro l db h
    exact runTriggers_last pid Trigger.write l db h
  · intro db h
    have h2 := runTriggers_last pid Trigger.write [Trigger.transcribe, Trigger.plan] db h
    simpa using h2

/-- Closed instance of C1 on the sample database. -/
theorem lifecycle_triggers_overwrite_witness :
    ∃ db2, runTriggers 1 [Trigger.transcribe, Trigger.plan, Trigger.write] sampleDB
        = .ok db2 ∧
      projStatus 1 db2 = some "WRITING" ∧
      projAgent 1 db2 = some (some "WritingAgent") :=
  (lifecycle_triggers_overwrite 1).2.2 sampleDB (by rfl)

/-- C2: for a project with at least one Blueprint (resp. Article) row,
GET blueprint (resp. article) returns the content of a row of that
project whose version is maximal among the project's rows. -/
theorem latest_is_max_version (pid : Nat) (db : DB) :
    ((∃ b ∈ db.blueprints, b.project_id = pid) →
      ∃ b, b ∈ db.blueprints ∧ b.project_id = pid ∧
        get_blueprint pid db = .ok b.content ∧
        ∀ c ∈ db.blueprints, c.project_id = pid → c.version ≤ b.version) ∧
    ((∃ a ∈ db.articles, a.project_id = pid) →
      ∃ a, a ∈ db.articles ∧ a.project_id = pid ∧
        get_article pid db = .ok (articleDict a) ∧
        ∀ c ∈ db.articles, c.project_id = pid → c.version ≤ a.version) := by
  constructor
  · rintro ⟨b0, hb0, hb0p⟩
    have hmem : b0 ∈ db.blueprints.filter (fun b => b.project_id == pid) :=
      List.mem_filter.2 ⟨hb0, by simpa using hb0p⟩
    obtain ⟨x, hx, hxm, hxmax⟩ := latestByVersion_spec Blueprint.version
      (db.blueprints.filter (fun b => b.project_id == pid))
      (List.ne_nil_of_mem hmem)
    rcases List.mem_filter.1 hxm with ⟨hxb, hxp⟩
    refine ⟨x, hxb, by simpa using hxp, ?_, ?_⟩
    · unfold get_blueprint
      rw [hx]
    · intro c hc hcp
      exact hxmax c (List.mem_filter.2 ⟨hc, by simpa using hcp⟩)
  · rintro ⟨a0, ha0, ha0p⟩
    have hmem : a0 ∈ db.articles.filter (fun a => a.project_id == pid) :=
      List.mem_filter.2 ⟨ha0, by simpa using ha0p⟩
    obtain ⟨x, hx, hxm, hxmax⟩ := latestByVersion_spec Article.version
      (db.articles.filter (fun a => a.project_id == pid))
      (List.ne_nil_of_mem hmem)
    rcases List.mem_filter.1 hxm with ⟨hxa, hxp⟩
    refine ⟨x, hxa, by simpa using hxp, ?_, ?_⟩
    · unfold get_article
      rw [hx]
    · intro c hc hcp
      exact hxmax c (List.mem_filter.2 ⟨hc, by simpa using hcp⟩)

/-- Closed instance of C2 on the sample database. -/
theorem latest_is_max_version_witness :
    (∃ b, b ∈ sampleDB.blueprints ∧ b.project_id = 1 ∧
      get_blueprint 1 sampleDB = .ok b.content ∧
      ∀ c ∈ sampleDB.blueprints, c.project_id = 1 → c.version ≤ b.version) ∧
    (∃ a, a ∈ sampleDB.articles ∧ a.project_id = 1 ∧
      get_article 1 sampleDB = .ok (articleDict a) ∧
      ∀ c ∈ sampleDB.articles, c.project_id = 1 → c.version ≤ a.version) :=
  ⟨(latest_is_max_version 1 sampleDB).1
      ⟨sampleBlueprint, by simp [sampleDB], rfl⟩,
   (latest_is_max_version 1 sampleDB).2
      ⟨sampleArticle, by simp [sampleDB], rfl⟩⟩

/-- C3: creating a project and fetching it by the returned id yields the
same name and description and status INITIALIZED (the fresh id is not
already taken by another project row). -/
theorem create_then_get (data : ProjectCreate) (db : DB)
    (hfresh : ∀ q ∈ db.projects, q.id ≠ db.next_id) :
    ∀ p db2, create_project data db = (p, db2) →
      get_project p.id db2 = .ok p ∧ p.name = data.name ∧
      p.description = data.description ∧ p.status = "INITIALIZED" := by
  intro p db2 hc
  have hp : p =
      { id := db.next_id, name := data.name,
        description := data.description, status := "INITIALIZED",
        current_agent := none, created_at := db.now, updated_at := db.now } := by
    have := congrArg Prod.fst hc
    exact this.symm
  have hdb : db2 =
      { db with projects := db.projects ++ [p],
                next_id := db.next_id + 1 } := by
    have := congrArg Prod.snd hc
    rw [hp]
    exact this.symm
  subst hp hdb
  refine ⟨?_, rfl, rfl, rfl⟩
  unfold get_project findProject
  have h1 : db.projects.find? (fun q => q.id == db.next_id) = none :=
    List.find?_eq_none.2 (fun q hq => by simpa using hfresh q hq)
  rw [List.find?_append, h1]
  simp [List.find?]

/-- Closed instance of C3 on the sample database. -/
theorem create_then_get_witness :
    get_project (create_project ⟨"P2", some "d"⟩ sampleDB).1.id
        (create_project ⟨"P2", some "d"⟩ sampleDB).2
      = .ok (create_project ⟨"P2", some "d"⟩ sampleDB).1 ∧
    (create_project ⟨"P2", some "d"⟩ sampleDB).1.name = "P2" ∧
    (create_project ⟨"P2", some "d"⟩ sampleDB).1.description = some "d" ∧
    (create_project ⟨"P2", some "d"⟩ sampleDB).1.status = "INITIALIZED" :=
  create_then_get ⟨"P2", some "d"⟩ sampleDB (by decide)
    (create_project ⟨"P2", some "d"⟩ sampleDB).1
    (create_project ⟨"P2", some "d"⟩ sampleDB).2 rfl

/-- C4: uploading to an existing project with a disallowed extension
fails with the 400 unsupported-type error (the handler raises before any
insert, so no AudioFile row is produced); an allowed extension succeeds
and the file then appears in the project's audio list under its original
filename; uploading to a nonexistent project fails with 404. -/
theorem upload_audio_spec (pid : Nat) (filename : String) (db : DB) :
    (projectExists pid db = false →
      upload_audio pid filename db = .error ⟨404, "项目不存在"⟩) ∧
    (projectExists pid db = true →
      strLower (splitextExt filename) ∉ allowedExtensions →
      upload_audio pid filename db = .error ⟨400, "不支持的文件类型"⟩) ∧
    (projectExists pid db = true →
      strLower (splitextExt filename) ∈ allowedExtensions →
      ∃ r db2, upload_audio pid filename db = .ok (r, db2) ∧
        filename ∈ (list_audio pid db2).map AudioOut.filename) := by
  refine ⟨?_, ?_, ?_⟩
  · intro h
    have hn : findProject pid db = none := by
      cases hfp : findProject pid db with
      | none => rfl
      | some p =>
        unfold projectExists at h
        rw [hfp] at h
        simp at h
    unfold upload_audio
    rw [hn]
  · intro h hext
    unfold projectExists at h
    obtain ⟨p, hp⟩ := Option.isSome_iff_exists.1 h
    unfold upload_audio
    rw [hp]
    simp only [if_neg hext]
  · intro h hext
    unfold projectExists at h
    obtain ⟨p, hp⟩ := Option.isSome_iff_exists.1 h
    refine ⟨_, _, upload_audio_ok pid filename db p hp hext, ?_⟩
    unfold list_audio
    simp [List.filter_append, List.mem_map, List.mem_filter]

/-- Closed instance of C4 on the sample database. -/
theorem upload_audio_spec_witness :
    upload_audio 99 "song.mp3" sampleDB = .error ⟨404, "项目不存在"⟩ ∧
    upload_audio 1 "note.txt" sampleDB = .error ⟨400, "不支持的文件类型"⟩ ∧
    (∃ r db2, upload_audio 1 "song.mp3" sampleDB = .ok (r, db2) ∧
      "song.mp3" ∈ (list_audio 1 db2).map AudioOut.filename) :=
  ⟨(upload_audio_spec 99 "song.mp3" sampleDB).1 (by rfl),
   (upload_audio_spec 1 "note.txt" sampleDB).2.1 (by rfl) (by decide),
   (upload_audio_spec 1 "song.mp3" sampleDB).2.2 (by rfl) (by decide)⟩

/-- C5: a project id with zero Dialogue (resp. Blueprint, Article) rows
gets a 404 from GET dialogue (resp. blueprint, article), never an empty
result. -/
theorem zero_rows_not_found (pid : Nat) (db : DB) :
    ((∀ d ∈ db.dialogues, d.project_id ≠ pid) →
      get_dialogue pid db = .error ⟨404, "暂无对话数据"⟩) ∧
    ((∀ b ∈ db.blueprints, b.project_id ≠ pid) →
      get_blueprint pid db = .error ⟨404, "暂无蓝图"⟩) ∧
    ((∀ a ∈ db.articles, a.project_id ≠ pid) →
      get_article pid db = .error ⟨404, "暂无文章"⟩) := by
  refine ⟨?_, ?_, ?_⟩
  · intro h
    unfold get_dialogue
    rw [List.find?_eq_none.2 (fun d hd => by simpa using h d hd)]
  · intro h
    unfold get_blueprint
    rw [List.filter_eq_nil_iff.2 (fun b hb => by simpa using h b hb)]
    rfl
  · intro h
    unfold get_article
    rw [List.filter_eq_nil_iff.2 (fun a ha => by simpa using h a ha)]
    rfl

/-- Closed instance of C5 on the sample database (project id 2 has no
rows of any of the three kinds). -/
theorem zero_rows_not_found_witness :
    get_dialogue 2 sampleDB = .error ⟨404, "暂无对话数据"⟩ ∧
    get_blueprint 2 sampleDB = .error ⟨404, "暂无蓝图"⟩ ∧
    get_article 2 sampleDB = .error ⟨404, "暂无文章"⟩ :=
  ⟨(zero_rows_not_found 2 sampleDB).1 (by decide),
   (zero_rows_not_found 2 sampleDB).2.1 (by decide),
   (zero_rows_not_found 2 sampleDB).2.2 (by decide)⟩

/-- C6: no endpoint ever writes COMPLETED: a freshly created project has
status INITIALIZED, and under every sequence of endpoint calls every
project status stays within INITIALIZED, TRANSCRIBING, PLANNING,
WRITING. -/
theorem no_endpoint_reaches_completed (data : ProjectCreate) (db : DB)
    (calls : List Call) (h : statusOK db) :
    (create_project data db).1.status = "INITIALIZED" ∧
    statusOK (stepCalls calls (create_project data db).2) ∧
    (∀ pid s,
      projStatus pid (stepCalls calls (create_project data db).2) = some s →
      s ∈ allowedStatuses) := by
  have hc : statusOK (create_project data db).2 := by
    intro p hp
    rcases List.mem_append.1 hp with h1 | h1
    · exact h p h1
    · rcases List.mem_singleton.1 h1 with rfl
      simp [allowedStatuses]
  have hs := stepCalls_statusOK calls _ hc
  refine ⟨rfl, hs, ?_⟩
  intro pid s hps
  unfold projStatus at hps
  cases hf : findProject pid (stepCalls calls (create_project data db).2) with
  | none =>
    rw [hf] at hps
    simp at hps
  | some p =>
    rw [hf] at hps
    simp at hps
    have hmem : p ∈ (stepCalls calls (create_project data db).2).projects := by
      unfold findProject at hf
      exact List.mem_of_find?_eq_some hf
    exact hps ▸ hs p hmem

/-- Closed instance of C6 on the sample database. -/
theorem no_endpoint_reaches_completed_witness :
    (create_project ⟨"P9", none⟩ sampleDB).1.status = "INITIALIZED" ∧
    statusOK (stepCalls [Call.write 1, Call.transcribe 1]
      (create_project ⟨"P9", none⟩ sampleDB).2) ∧
    (∀ pid s,
      projStatus pid (stepCalls [Call.write 1, Call.transcribe 1]
        (create_project ⟨"P9", none⟩ sampleDB).2) = some s →
      s ∈ allowedStatuses) :=
  no_endpoint_reaches_completed ⟨"P9", none⟩ sampleDB
    [Call.write 1, Call.transcribe 1]
    (by
      intro p hp
      rcases List.mem_singleton.1 hp with rfl
      simp [allowedStatuses, sampleProject])

/-- C7 (amended): deletion never cascades to child rows. For an existing
project with no child rows the delete succeeds and removes exactly that
project row — child tables and every other project row untouched, no row
with the deleted id remaining (project ids pairwise distinct). For an
existing project that owns child rows, the NOT NULL foreign keys make
the commit fail with the integrity error, so nothing is deleted at
all — rather than, as originally claimed, the project row vanishing and
the child rows surviving as orphans. -/
theorem delete_project_no_cascade (pid : Nat) (db : DB)
    (hex : projectExists pid db = true)
    (huniq : db.projects.Pairwise (fun p q => p.id ≠ q.id)) :
    (hasChildRows pid db = false →
      ∃ db2, delete_project pid db = .ok ("删除成功", db2) ∧
        db2.audio_files = db.audio_files ∧
        db2.dialogues = db.dialogues ∧
        db2.blueprints = db.blueprints ∧
        db2.articles = db.articles ∧
        (∀ q ∈ db.projects, q.id ≠ pid → q ∈ db2.projects) ∧
        (∀ q ∈ db2.projects, q ∈ db.projects) ∧
        (∀ q ∈ db2.projects, q.id ≠ pid)) ∧
    (hasChildRows pid db = true →
      delete_project pid db = .error ⟨500, "IntegrityError"⟩) := by
  unfold projectExists at hex
  obtain ⟨p, hp⟩ := Option.isSome_iff_exists.1 hex
  constructor
  · intro hch
    refine ⟨_, delete_project_ok pid db p hp hch, rfl, rfl, rfl, rfl, ?_, ?_, ?_⟩
    · intro q hq hqe
      exact (List.mem_eraseP_of_neg (by simpa using hqe)).2 hq
    · intro q hq
      exact List.mem_of_mem_eraseP hq
    · exact eraseP_id_complete db.projects pid huniq
  · intro hch
    exact delete_project_err pid db p hp hch

/-- C7 counterexample: project 1 of the sample database owns a blueprint
and an article, so its deletion does not succeed at all — it fails with
the integrity error and no .ok outcome exists, refuting the original
claim that every existing project's deletion removes the project row. -/
theorem delete_project_counterexample :
    delete_project 1 sampleDB = .error ⟨500, "IntegrityError"⟩ ∧
    (∀ r db2, delete_project 1 sampleDB ≠ .ok (r, db2)) := by
  refine ⟨rfl, ?_⟩
  intro r db2 h
  rw [show delete_project 1 sampleDB = .error ⟨500, "IntegrityError"⟩ from rfl]
    at h
  exact Except.noConfusion h

/-- Closed instance of C7 (amended): the childless project 7 is deleted
cleanly with every other table untouched, while project 1, which owns
child rows, fails with the integrity error. -/
theorem delete_project_no_cascade_witness :
    (∃ db2, delete_project 7 sampleDB2 = .ok ("删除成功", db2) ∧
      db2.audio_files = sampleDB2.audio_files ∧
      db2.dialogues = sampleDB2.dialogues ∧
      db2.blueprints = sampleDB2.blueprints ∧
      db2.articles = sampleDB2.articles ∧
      (∀ q ∈ sampleDB2.projects, q.id ≠ 7 → q ∈ db2.projects) ∧
      (∀ q ∈ db2.projects, q ∈ sampleDB2.projects) ∧
      (∀ q ∈ db2.projects, q.id ≠ 7)) ∧
    delete_project 1 sampleDB = .error ⟨500, "IntegrityError"⟩ :=
  ⟨(delete_project_no_cascade 7 sampleDB2 (by rfl) (by simp [sampleDB2])).1
      (by rfl),
   (delete_project_no_cascade 1 sampleDB (by rfl) (by simp [sampleDB])).2
      (by rfl)⟩

/-- C8: the extension check lowercases before comparing, so any filename
whose lowercased splitext extension is allowed is accepted on an
existing project, uppercase spellings included. -/
theorem upload_extension_case_insensitive (pid : Nat) (filename : String)
    (db : DB) (hex : projectExists pid db = true)
    (hext : strLower (splitextExt filename) ∈ allowedExtensions) :
    ∃ r db2, upload_audio pid filename db = .ok (r, db2) := by
  unfold projectExists at hex
  obtain ⟨p, hp⟩ := Option.isSome_iff_exists.1 hex
  exact ⟨_, _, upload_audio_ok pid filename db p hp hext⟩

/-- Closed instance of C8: an uppercase .MP3 upload is accepted. -/
theorem upload_extension_case_insensitive_witness :
    ∃ r db2, upload_audio 1 "SONG.MP3" sampleDB = .ok (r, db2) :=
  upload_extension_case_insensitive 1 "SONG.MP3" sampleDB (by rfl) (by decide)

/-- C9: GET audio performs no project-existence check: any id without
AudioFile rows — an id of no existing project included — yields a plain
empty list, not a 404 (the handler's type has no error case at all). -/
theorem list_audio_no_existence_check (pid : Nat) (db : DB)
    (h : ∀ a ∈ db.audio_files, a.project_id ≠ pid) :
    list_audio pid db = [] := by
  unfold list_audio
  rw [List.filter_eq_nil_iff.2 (fun a ha => by simpa using h a ha)]
  rfl

/-- Closed instance of C9: project id 99 does not exist, yet the audio
listing succeeds with the empty list. -/
theorem list_audio_no_existence_check_witness :
    list_audio 99 sampleDB = [] ∧ projectExists 99 sampleDB = false :=
  ⟨list_audio_no_existence_check 99 sampleDB (by decide), rfl⟩

/-- C10: the article response dict carries exactly the keys id, title,
content, footnotes, word_count and version, omitting audit_report and
created_at although both the articles table and the ArticleResponse
schema declare them. -/
theorem get_article_fields (pid : Nat) (db : DB)
    (out : List (String × PyVal)) (h : get_article pid db = .ok out) :
    out.map Prod.fst
        = ["id", "title", "content", "footnotes", "word_count", "version"] ∧
    "audit_report" ∉ out.map Prod.fst ∧
    "created_at" ∉ out.map Prod.fst ∧
    "audit_report" ∈ articleResponseFields ∧
    "created_at" ∈ articleResponseFields ∧
    "audit_report" ∈ articleTableFields ∧
    "created_at" ∈ articleTableFields := by
  have hkeys : out.map Prod.fst
      = ["id", "title", "content", "footnotes", "word_count", "version"] := by
    unfold get_article at h
    cases hl : latestByVersion Article.version
        (db.articles.filter (fun a => a.project_id == pid)) with
    | none =>
      rw [hl] at h
      simp at h
    | some a =>
      rw [hl] at h
      simp only [Except.ok.injEq] at h
      rw [← h]
      rfl
  refine ⟨hkeys, ?_, ?_, by decide, by decide, by decide, by decide⟩
  · rw [hkeys]
    decide
  · rw [hkeys]
    decide

/-- Closed instance of C10 on the sample database. -/
theorem get_article_fields_witness :
    (articleDict sampleArticle).map Prod.fst
        = ["id", "title", "content", "footnotes", "word_count", "version"] ∧
    "audit_report" ∉ (articleDict sampleArticle).map Prod.fst ∧
    "created_at" ∉ (articleDict sampleArticle).map Prod.fst ∧
    "audit_report" ∈ articleResponseFields ∧
    "created_at" ∈ articleResponseFields ∧
    "audit_report" ∈ articleTableFields ∧
    "created_at" ∈ articleTableFields :=
  get_article_fields 1 sampleDB (articleDict sampleArticle) (by rfl)

end BioAgent
